import Mathlib

/-!
Verification of the PostgreSQL JSON/JSONB type module
(`lib/sqlalchemy/dialects/postgresql/json.py`).

The development shallowly embeds the module's data model and operations:

* the seven custom operator descriptors (`ASTEXT`, `JSONPATH_ASTEXT`,
  `HAS_KEY`, `HAS_ALL`, `HAS_ANY`, `CONTAINS`, `CONTAINED_BY`),
  json.py lines 20-47;
* `JSONPathType.bind_processor`, the path normalizer, lines 50-57;
* `JSON.bind_processor` / `JSON.result_processor`, the value codec with its
  three-way NULL discrimination, lines 211-245, together with an executable
  model of the default serializer / deserializer (`json.dumps` /
  `json.loads`, external to the repository and therefore modelled from the
  spec) and a machine-checked round-trip theorem for it;
* the typed expression engine: the `astext` accessor of `JSON.Comparator`,
  lines 186-207, and the five containment / existence methods of
  `JSONB.Comparator`, lines 298-328.

Python strings are modelled as Lean `String` / `List Char`; Python `None`,
the `null()` construct and the `JSON.NULL` sentinel become explicit
constructors; a raised exception becomes an `Except` error.  All
definitions are executable, so every theorem can be checked on concrete
inputs by `rfl`.
-/

/-! ## Operator descriptors

Source: `operators.custom_op("->>", precedence=15, natural_self_precedent=True)`
and the six analogous definitions (json.py lines 20-47). -/

structure custom_op where
  opstring : String
  precedence : Nat
  natural_self_precedent : Bool
deriving DecidableEq, Repr

def ASTEXT : custom_op := ⟨"->>", 15, true⟩

def JSONPATH_ASTEXT : custom_op := ⟨"#>>", 15, true⟩

def HAS_KEY : custom_op := ⟨"?", 15, true⟩

def HAS_ALL : custom_op := ⟨"?&", 15, true⟩

def HAS_ANY : custom_op := ⟨"?|", 15, true⟩

def CONTAINS : custom_op := ⟨"@>", 15, true⟩

def CONTAINED_BY : custom_op := ⟨"<@", 15, true⟩

/-- The seven-operator descriptor family defined by the module, in source
order. -/
def operatorFamily : List custom_op :=
  [ASTEXT, JSONPATH_ASTEXT, HAS_KEY, HAS_ALL, HAS_ANY, CONTAINS, CONTAINED_BY]

/-! ## Path normalizer

Source: `JSONPathType.bind_processor` (json.py lines 50-57):

    def process(value):
        assert isinstance(value, collections.Sequence)
        tokens = [util.text_type(elem) for elem in value]
        return "{%s}" % (", ".join(tokens))

Path-segment values are modelled as atoms (strings or integers), the inputs
the processor is exercised with; a Python `str` counts as a
`collections.Sequence` whose elements are its one-character substrings. -/

inductive PyAtom where
  | pyStr (s : String)
  | pyInt (i : Int)
deriving Repr

/-- A Python value handed to the path bind processor: either a scalar atom or
a list of atoms. -/
inductive PyValue where
  | atom (a : PyAtom)
  | pyList (xs : List PyAtom)
deriving Repr

/-- Model of `isinstance(value, collections.Sequence)`: Python lists and
strings are sequences, integers are not. -/
def PyValue.isSequence : PyValue → Bool
  | .pyList _ => true
  | .atom (.pyStr _) => true
  | .atom (.pyInt _) => false

/-- Model of `util.text_type` (`str`) on atoms. -/
def text_type : PyAtom → String
  | .pyStr s => s
  | .pyInt i => toString i

/-- Iterating a Python sequence: a list yields its elements, a string yields
its characters as one-character strings. -/
def PyValue.elems : PyValue → List PyAtom
  | .pyList xs => xs
  | .atom (.pyStr s) => s.data.map (fun c => PyAtom.pyStr (String.singleton c))
  | .atom (.pyInt _) => []

/-- Error raised by the path normalizer's sequence precondition (the
`assert isinstance(value, collections.Sequence)`; the spec's `TypeMismatch`). -/
inductive PathBindError where
  | typeMismatch
deriving DecidableEq, Repr

/-- Model of the `process` closure returned by
`JSONPathType.bind_processor`. The precondition check comes first; the
output is the segments' string representations joined by a comma and a
space, enclosed in braces. -/
def JSONPathType.bind_processor (value : PyValue) : Except PathBindError String :=
  if value.isSequence then
    let tokens := value.elems.map text_type
    Except.ok ("\x7b" ++ String.intercalate ", " tokens ++ "\x7d")
  else
    Except.error PathBindError.typeMismatch

/-! ## JSON values

Structured values handled by the codec.  Arrays and objects are represented
by the mutually-defined list types so that all recursions below are
structural. -/

mutual
inductive JsonValue : Type where
  | null : JsonValue
  | bool : Bool → JsonValue
  | num : Int → JsonValue
  | str : String → JsonValue
  | arr : JsonList → JsonValue
  | obj : JsonObj → JsonValue

inductive JsonList : Type where
  | nil : JsonList
  | cons : JsonValue → JsonList → JsonList

inductive JsonObj : Type where
  | nil : JsonObj
  | cons : String → JsonValue → JsonObj → JsonObj
end

/-! ## Default serializer

Modelled from the spec: the default serializer is `json.dumps`, a standard
structured-data serializer external to this repository (spec section 4.3;
json.py line 212 merely falls back to it via
`dialect._json_serializer or json.dumps`).  The model reproduces
`json.dumps` output for the embedded value type: default separators
`", "` and `": "`, decimal integers, and strings quoted with `"` and `\`
escaped. -/

def digitChar (d : Nat) : Char := Char.ofNat (48 + d)

/-- Decimal digits of `n`, most significant first, accumulated onto `acc`;
`fuel` bounds the recursion and any `fuel > n` is enough. -/
def natCharsAux : Nat → Nat → List Char → List Char
  | 0, _, acc => acc
  | fuel + 1, n, acc =>
      if n = 0 then acc
      else natCharsAux fuel (n / 10) (digitChar (n % 10) :: acc)

def natChars (n : Nat) : List Char :=
  if n = 0 then ['0'] else natCharsAux (n + 1) n []

def intChars (i : Int) : List Char :=
  if i < 0 then '-' :: natChars i.natAbs else natChars i.toNat

def escapeChar (c : Char) : List Char :=
  if c = '"' ∨ c = '\\' then ['\\', c] else [c]

def escapeChars : List Char → List Char
  | [] => []
  | c :: cs => escapeChar c ++ escapeChars cs

def strChars (s : String) : List Char :=
  '"' :: (escapeChars s.data ++ ['"'])

def lbrace : Char := Char.ofNat 123

def rbrace : Char := Char.ofNat 125

mutual
def dumpChars : JsonValue → List Char
  | .null => "null".data
  | .bool true => "true".data
  | .bool false => "false".data
  | .num i => intChars i
  | .str s => strChars s
  | .arr .nil => ['[', ']']
  | .arr (.cons v l) => '[' :: (dumpChars v ++ dumpListChars l ++ [']'])
  | .obj .nil => [lbrace, rbrace]
  | .obj (.cons k v o) =>
      lbrace :: (strChars k ++ ':' :: ' ' :: dumpChars v ++ dumpObjChars o ++ [rbrace])

def dumpListChars : JsonList → List Char
  | .nil => []
  | .cons v l => ',' :: ' ' :: (dumpChars v ++ dumpListChars l)

def dumpObjChars : JsonObj → List Char
  | .nil => []
  | .cons k v o => ',' :: ' ' :: (strChars k ++ ':' :: ' ' :: dumpChars v ++ dumpObjChars o)
end

/-- Model of the default serializer `json.dumps` on embedded values. -/
def json_dumps (v : JsonValue) : String := String.mk (dumpChars v)

/-! ## Default deserializer

Modelled from the spec: the default deserializer is `json.loads`, the
standard structured-data deserializer external to this repository
(json.py line 233: `dialect._json_deserializer or json.loads`).  It is a
fuel-bounded recursive-descent reader of the serializer's output format
that fails on any malformed input. -/

def takeDigits : List Char → List Char × List Char
  | [] => ([], [])
  | c :: cs =>
      if c.isDigit then
        let p := takeDigits cs
        (c :: p.1, p.2)
      else ([], c :: cs)

def charsToNat : Nat → List Char → Nat
  | acc, [] => acc
  | acc, c :: cs => charsToNat (acc * 10 + (c.toNat - 48)) cs

def parseNum (cs : List Char) : Option (Nat × List Char) :=
  let p := takeDigits cs
  match p.1 with
  | [] => none
  | _ => some (charsToNat 0 p.1, p.2)

def parseStrBody : List Char → Option (List Char × List Char)
  | [] => none
  | c :: cs =>
      if c = '"' then some ([], cs)
      else if c = '\\' then
        match cs with
        | [] => none
        | e :: cs2 =>
            if e = '"' ∨ e = '\\' then
              match parseStrBody cs2 with
              | some (s, r) => some (e :: s, r)
              | none => none
            else none
      else
        match parseStrBody cs with
        | some (s, r) => some (c :: s, r)
        | none => none

/-- True when the list does not start with a decimal digit, so a maximal
digit run ends exactly at its boundary. -/
def headNotDigit : List Char → Bool
  | [] => true
  | c :: _ => !c.isDigit

inductive PMode where
  | val
  | arrTail
  | objTail

inductive PRes where
  | v (x : JsonValue)
  | l (x : JsonList)
  | o (x : JsonObj)

/-- Expect an exact literal character sequence as a prefix, returning the
remainder. -/
def dropLit : List Char → List Char → Option (List Char)
  | [], cs => some cs
  | _ :: _, [] => none
  | p :: ps, c :: cs => if c = p then dropLit ps cs else none

def asVal : PRes × List Char → Option (JsonValue × List Char)
  | (.v v, r) => some (v, r)
  | _ => none

def asList : PRes × List Char → Option (JsonList × List Char)
  | (.l l, r) => some (l, r)
  | _ => none

def asObj : PRes × List Char → Option (JsonObj × List Char)
  | (.o o, r) => some (o, r)
  | _ => none

/-- Parse one value with the given recursor and extract it. -/
def recVal (rec : PMode → List Char → Option (PRes × List Char))
    (cs : List Char) : Option (JsonValue × List Char) :=
  (rec PMode.val cs).bind asVal

def recList (rec : PMode → List Char → Option (PRes × List Char))
    (cs : List Char) : Option (JsonList × List Char) :=
  (rec PMode.arrTail cs).bind asList

def recObj (rec : PMode → List Char → Option (PRes × List Char))
    (cs : List Char) : Option (JsonObj × List Char) :=
  (rec PMode.objTail cs).bind asObj

def parseArrItem (rec : PMode → List Char → Option (PRes × List Char))
    (c2 : Char) (r2 : List Char) : Option (PRes × List Char) :=
  if c2 = ']' then some (PRes.v (.arr .nil), r2)
  else
    (recVal rec (c2 :: r2)).bind fun p =>
      (recList rec p.2).map fun q => (PRes.v (.arr (.cons p.1 q.1)), q.2)

def parseBracket (rec : PMode → List Char → Option (PRes × List Char)) :
    List Char → Option (PRes × List Char)
  | [] => none
  | c2 :: r2 => parseArrItem rec c2 r2

def parseObjOpen (rec : PMode → List Char → Option (PRes × List Char))
    (c2 : Char) (r2 : List Char) : Option (PRes × List Char) :=
  if c2 = rbrace then some (PRes.v (.obj .nil), r2)
  else if c2 = '"' then
    (parseStrBody r2).bind fun pk =>
      (dropLit [':', ' '] pk.2).bind fun r4 =>
        (recVal rec r4).bind fun pv =>
          (recObj rec pv.2).map fun po =>
            (PRes.v (.obj (.cons (String.mk pk.1) pv.1 po.1)), po.2)
  else none

def parseBrace (rec : PMode → List Char → Option (PRes × List Char)) :
    List Char → Option (PRes × List Char)
  | [] => none
  | c2 :: r2 => parseObjOpen rec c2 r2

def parseValStep (rec : PMode → List Char → Option (PRes × List Char)) :
    List Char → Option (PRes × List Char)
  | [] => none
  | c :: r =>
      if c = 'n' then (dropLit ['u', 'l', 'l'] r).map fun r2 => (PRes.v .null, r2)
      else if c = 't' then (dropLit ['r', 'u', 'e'] r).map fun r2 => (PRes.v (.bool true), r2)
      else if c = 'f' then (dropLit ['a', 'l', 's', 'e'] r).map fun r2 => (PRes.v (.bool false), r2)
      else if c = '"' then (parseStrBody r).map fun p => (PRes.v (.str (String.mk p.1)), p.2)
      else if c = '[' then parseBracket rec r
      else if c = lbrace then parseBrace rec r
      else if c = '-' then (parseNum r).map fun p => (PRes.v (.num (-(p.1 : Int))), p.2)
      else (parseNum (c :: r)).map fun p => (PRes.v (.num (Int.ofNat p.1)), p.2)

def parseArrTailStep (rec : PMode → List Char → Option (PRes × List Char)) :
    List Char → Option (PRes × List Char)
  | [] => none
  | c :: r =>
      if c = ']' then some (PRes.l .nil, r)
      else if c = ',' then
        (dropLit [' '] r).bind fun r2 =>
          (recVal rec r2).bind fun p =>
            (recList rec p.2).map fun q => (PRes.l (.cons p.1 q.1), q.2)
      else none

def parseObjTailStep (rec : PMode → List Char → Option (PRes × List Char)) :
    List Char → Option (PRes × List Char)
  | [] => none
  | c :: r =>
      if c = rbrace then some (PRes.o .nil, r)
      else if c = ',' then
        (dropLit [' ', '"'] r).bind fun r2 =>
          (parseStrBody r2).bind fun pk =>
            (dropLit [':', ' '] pk.2).bind fun r4 =>
              (recVal rec r4).bind fun pv =>
                (recObj rec pv.2).map fun po =>
                  (PRes.o (.cons (String.mk pk.1) pv.1 po.1), po.2)
      else none

def parseF : Nat → PMode → List Char → Option (PRes × List Char)
  | 0, _, _ => none
  | fuel + 1, PMode.val, cs => parseValStep (parseF fuel) cs
  | fuel + 1, PMode.arrTail, cs => parseArrTailStep (parseF fuel) cs
  | fuel + 1, PMode.objTail, cs => parseObjTailStep (parseF fuel) cs

/-- Error raised when stored text fails to deserialize (the spec's
`MalformedData`; `json.loads` raises `ValueError`). -/
inductive DecodeError where
  | malformedData
deriving DecidableEq, Repr

/-- Model of the default deserializer `json.loads`: parse the whole string
as one value, failing on malformed or trailing input. -/
def json_loads (s : String) : Except DecodeError JsonValue :=
  match parseF (s.data.length + 1) PMode.val s.data with
  | some (.v v, []) => Except.ok v
  | _ => Except.error DecodeError.malformedData

/-! ## Value codec

Source: `JSON.bind_processor` / `JSON.result_processor` (json.py lines
211-245).  A bound Python value is either the `JSON.NULL` sentinel, a
`null()` construct (`elements.Null`), or an ordinary value (Python `None`
is the ordinary value `JsonValue.null`).  The processors mirror the source:

    def process(value):                 # bind_processor
        if value is self.NULL:
            value = None
        elif isinstance(value, elements.Null) or (
            value is None and self.none_as_null
        ):
            return None
        return json_serializer(value)

    def process(value):                 # result_processor
        if value is None:
            return None
        return json_deserializer(value)

The Python-2 `encoding` branch is not taken on Python 3 (`encoding = None`)
and is omitted.  `None` returned by `result_processor` is `JsonValue.null`,
which is also what deserializing the literal `"null"` produces — exactly the
collapse the source exhibits. -/

inductive BindValue where
  | NULL
  | sqlNull
  | val (v : JsonValue)

/-- Model of the identity test `value is None`. -/
def isNull : JsonValue → Bool
  | .null => true
  | _ => false

/-- The dialect-level codec configuration: `_json_serializer` and
`_json_deserializer`, each optional with a stdlib default. -/
structure Dialect where
  json_serializer : Option (JsonValue → String)
  json_deserializer : Option (String → Except DecodeError JsonValue)

/-- A dialect configured with no custom serializer or deserializer. -/
def defaultDialect : Dialect := ⟨none, none⟩

def JSON.bind_processor (none_as_null : Bool) (dialect : Dialect) :
    BindValue → Option String :=
  let json_serializer := dialect.json_serializer.getD json_dumps
  fun value =>
    match value with
    | .NULL => some (json_serializer JsonValue.null)
    | .sqlNull => none
    | .val v =>
        if isNull v && none_as_null then none
        else some (json_serializer v)

def JSON.result_processor (dialect : Dialect) :
    Option String → Except DecodeError JsonValue :=
  let json_deserializer := dialect.json_deserializer.getD json_loads
  fun value =>
    match value with
    | none => Except.ok JsonValue.null
    | some s => json_deserializer s

/-! ## Typed expression engine

Source: `JSON.Comparator.astext` (json.py lines 186-207) and
`JSONB.Comparator` (lines 298-328).  An expression carries its SQL type;
`operate` builds a new binary expression node with an explicit result type,
as `ColumnElement.operate(op, other, result_type=...)` does. -/

inductive SqlType where
  | JSON (none_as_null : Bool) (astext_ty : SqlType)
  | JSONB (none_as_null : Bool) (astext_ty : SqlType)
  | JSONPathType
  | Text
  | Boolean
deriving Repr

inductive Expr where
  | column (name : String) (ty : SqlType)
  | bindParam (value : PyValue) (ty : SqlType)
  | binary (left : Expr) (op : custom_op) (right : Expr) (ty : SqlType)
deriving Repr

def Expr.type : Expr → SqlType
  | .column _ t => t
  | .bindParam _ t => t
  | .binary _ _ _ t => t

def Expr.operator : Expr → Option custom_op
  | .binary _ op _ _ => some op
  | _ => none

def Expr.lhs : Expr → Option Expr
  | .binary l _ _ _ => some l
  | _ => none

def Expr.rhs : Expr → Option Expr
  | .binary _ _ r _ => some r
  | _ => none

def operate (left : Expr) (op : custom_op) (right : Expr) (result_type : SqlType) : Expr :=
  Expr.binary left op right result_type

/-- Model of `isinstance(t, JSONPathType)`. -/
def SqlType.isJSONPathType : SqlType → Bool
  | .JSONPathType => true
  | _ => false

/-- The `astext_type` attribute: configured on the JSON and JSONB types,
absent (AttributeError, modelled as `none`) elsewhere. -/
def SqlType.astext_type : SqlType → Option SqlType
  | .JSON _ a => some a
  | .JSONB _ a => some a
  | _ => none

/-- Model of the `astext` property (json.py lines 186-207): on an indexed
expression, pick `#>>` when the right operand's type is the path type and
`->>` otherwise, rebuilding the expression from the same left and right
operands with the owning type's `astext_type` as result type.  Accessing
`astext` on a non-binary expression or a non-JSON-typed comparator has no
defined behaviour in the source (attribute errors) and is `none`. -/
def JSON.Comparator.astext (e : Expr) : Option Expr :=
  match e with
  | .binary l _ r t =>
      match t.astext_type with
      | some aty =>
          if (Expr.type r).isJSONPathType then some (operate l JSONPATH_ASTEXT r aty)
          else some (operate l ASTEXT r aty)
      | none => none
  | _ => none

/-- An index argument: a scalar key or an ordered path. -/
inductive IndexArg where
  | scalarKey (k : String)
  | path (segs : List String)

def IndexArg.isPath : IndexArg → Bool
  | .path _ => true
  | .scalarKey _ => false

/-- Modelled from the spec: the key-shaped index operator (`->`, named in
the module's docstring); the core `Comparator._setup_getitem` that uses it
lives in `sqlalchemy/sql/sqltypes.py`, outside this repository slice. -/
def JSON_GETITEM : custom_op := ⟨"->", 15, true⟩

/-- Modelled from the spec: the path-shaped index operator (`#>`, named in
the module's docstring). -/
def JSON_PATH_GETITEM : custom_op := ⟨"#>", 15, true⟩

/-- Modelled from the spec: the right operand built for an index operation —
a bound parameter typed with the path type for an ordered path, and with
the owning type for a scalar key. -/
def indexOperand (e : Expr) : IndexArg → Expr
  | .scalarKey k => Expr.bindParam (.atom (.pyStr k)) e.type
  | .path segs => Expr.bindParam (.pyList (segs.map PyAtom.pyStr)) SqlType.JSONPathType

/-- Modelled from the spec: the index operation (spec section 4.4).  An
ordered-sequence argument is tagged with the path-operator family and its
operand carries the path type; any other argument is a scalar key.  The
produced sub-expression keeps the owning type as its result type so that
chained indexing keeps working. -/
def getitem (e : Expr) (idx : IndexArg) : Expr :=
  match idx with
  | .scalarKey k => operate e JSON_GETITEM (indexOperand e (.scalarKey k)) e.type
  | .path segs => operate e JSON_PATH_GETITEM (indexOperand e (.path segs)) e.type

/-- Source lines 301-305: `self.operate(HAS_KEY, other, result_type=sqltypes.Boolean)`. -/
def JSONB.Comparator.has_key (e other : Expr) : Expr :=
  operate e HAS_KEY other SqlType.Boolean

/-- Source lines 307-310. -/
def JSONB.Comparator.has_all (e other : Expr) : Expr :=
  operate e HAS_ALL other SqlType.Boolean

/-- Source lines 312-315. -/
def JSONB.Comparator.has_any (e other : Expr) : Expr :=
  operate e HAS_ANY other SqlType.Boolean

/-- Source lines 317-321. -/
def JSONB.Comparator.contains (e other : Expr) : Expr :=
  operate e CONTAINS other SqlType.Boolean

/-- Source lines 323-328. -/
def JSONB.Comparator.contained_by (e other : Expr) : Expr :=
  operate e CONTAINED_BY other SqlType.Boolean

/-! ## Theorems -/

-- ## Equation lemmas stated by hand (robust rewriting)

theorem natCharsAux_zero (n : Nat) (acc : List Char) : natCharsAux 0 n acc = acc := rfl

theorem natCharsAux_succ (fuel n : Nat) (acc : List Char) :
    natCharsAux (fuel + 1) n acc =
      if n = 0 then acc else natCharsAux fuel (n / 10) (digitChar (n % 10) :: acc) := rfl

theorem charsToNat_nil (a : Nat) : charsToNat a [] = a := rfl

theorem charsToNat_cons (a : Nat) (c : Char) (cs : List Char) :
    charsToNat a (c :: cs) = charsToNat (a * 10 + (c.toNat - 48)) cs := rfl

-- ## Digit lemmas

theorem digitChar_isDigit {d : Nat} (h : d < 10) : (digitChar d).isDigit = true := by
  interval_cases d <;> decide

theorem digitChar_toNat {d : Nat} (h : d < 10) : (digitChar d).toNat = 48 + d := by
  interval_cases d <;> decide

theorem natCharsAux_digits :
    ∀ (fuel n : Nat) (acc : List Char), (∀ c ∈ acc, c.isDigit = true) →
      ∀ c ∈ natCharsAux fuel n acc, c.isDigit = true := by
  intro fuel
  induction fuel with
  | zero => intro n acc hacc; simpa [natCharsAux_zero] using hacc
  | succ f ih =>
      intro n acc hacc c hc
      rw [natCharsAux_succ] at hc
      by_cases hn : n = 0
      · rw [if_pos hn] at hc; exact hacc c hc
      · rw [if_neg hn] at hc
        refine ih (n / 10) _ ?_ c hc
        intro c' hc'
        rcases List.mem_cons.mp hc' with h | h
        · subst h; exact digitChar_isDigit (Nat.mod_lt _ (by omega))
        · exact hacc c' h

theorem natChars_digits (n : Nat) : ∀ c ∈ natChars n, c.isDigit = true := by
  rw [natChars]
  by_cases hn : n = 0
  · rw [if_pos hn]; intro c hc; simp at hc; subst hc; decide
  · rw [if_neg hn]
    exact natCharsAux_digits _ _ _ (by intro c hc; simp at hc)

theorem natCharsAux_ne_nil :
    ∀ (fuel n : Nat) (acc : List Char), acc ≠ [] → natCharsAux fuel n acc ≠ [] := by
  intro fuel
  induction fuel with
  | zero => intro n acc h; simpa [natCharsAux_zero] using h
  | succ f ih =>
      intro n acc h
      rw [natCharsAux_succ]
      by_cases hn : n = 0
      · rw [if_pos hn]; exact h
      · rw [if_neg hn]; exact ih _ _ (by simp)

theorem natChars_ne_nil (n : Nat) : natChars n ≠ [] := by
  rw [natChars]
  by_cases hn : n = 0
  · rw [if_pos hn]; simp
  · rw [if_neg hn]
    rw [natCharsAux_succ, if_neg hn]
    exact natCharsAux_ne_nil _ _ _ (by simp)

theorem charsToNat_acc : ∀ (l : List Char) (a : Nat),
    charsToNat a l = a * 10 ^ l.length + charsToNat 0 l := by
  intro l
  induction l with
  | nil => intro a; simp [charsToNat_nil]
  | cons c cs ih =>
      intro a
      rw [charsToNat_cons, charsToNat_cons]
      rw [ih (a * 10 + (c.toNat - 48)), ih (0 * 10 + (c.toNat - 48))]
      simp [List.length_cons]
      ring

theorem charsToNat_natCharsAux :
    ∀ (fuel n : Nat) (acc : List Char), n < 10 ^ fuel →
      charsToNat 0 (natCharsAux fuel n acc) =
        n * 10 ^ acc.length + charsToNat 0 acc := by
  intro fuel
  induction fuel with
  | zero => intro n acc h; simp at h; subst h; simp [natCharsAux_zero]
  | succ f ih =>
      intro n acc h
      rw [natCharsAux_succ]
      by_cases hn : n = 0
      · rw [if_pos hn]; subst hn; simp
      · rw [if_neg hn]
        rw [ih (n / 10) _ (by
          have h10 : (10 : Nat) ^ (f + 1) = 10 ^ f * 10 := by ring
          rw [h10] at h
          exact Nat.div_lt_of_lt_mul (by omega))]
        rw [show charsToNat 0 (digitChar (n % 10) :: acc) =
              charsToNat (n % 10) acc by
          rw [charsToNat_cons]
          congr 1
          rw [digitChar_toNat (Nat.mod_lt _ (by omega))]
          omega]
        rw [charsToNat_acc acc (n % 10)]
        simp only [List.length_cons, pow_succ]
        conv_rhs => rw [← Nat.div_add_mod n 10]
        ring

theorem charsToNat_natChars (n : Nat) : charsToNat 0 (natChars n) = n := by
  rw [natChars]
  by_cases hn : n = 0
  · rw [if_pos hn]; subst hn; decide
  · rw [if_neg hn]
    rw [charsToNat_natCharsAux (n + 1) n [] (by
      calc n < 10 ^ n := Nat.lt_pow_self (by omega) n
        _ ≤ 10 ^ (n + 1) := Nat.pow_le_pow_right (by omega) (by omega))]
    simp [charsToNat_nil]

-- ## Number parsing round-trip

theorem takeDigits_nil : takeDigits [] = ([], []) := rfl

theorem takeDigits_cons (c : Char) (cs : List Char) :
    takeDigits (c :: cs) =
      if c.isDigit then ((c :: (takeDigits cs).1, (takeDigits cs).2))
      else ([], c :: cs) := rfl

theorem takeDigits_append :
    ∀ (ds rest : List Char), (∀ c ∈ ds, c.isDigit = true) →
      headNotDigit rest = true → takeDigits (ds ++ rest) = (ds, rest) := by
  intro ds
  induction ds with
  | nil =>
      intro rest _ hr
      cases rest with
      | nil => rfl
      | cons c r =>
          simp only [headNotDigit, Bool.not_eq_true'] at hr
          simp [takeDigits_cons, hr]
  | cons d ds ih =>
      intro rest hds hr
      have hd : d.isDigit = true := hds d (by simp)
      simp only [List.cons_append, takeDigits_cons, hd, if_pos]
      rw [ih rest (fun c hc => hds c (by simp [hc])) hr]

theorem parseNum_natChars (n : Nat) (rest : List Char)
    (hr : headNotDigit rest = true) :
    parseNum (natChars n ++ rest) = some (n, rest) := by
  rw [parseNum]
  rw [takeDigits_append (natChars n) rest (natChars_digits n) hr]
  rcases hne : natChars n with _ | ⟨c, cs⟩
  · exact absurd hne (natChars_ne_nil n)
  · simp only []
    rw [← hne, charsToNat_natChars]

-- ## String body round-trip

theorem parseStrBody_escape :
    ∀ (l rest : List Char),
      parseStrBody (escapeChars l ++ '"' :: rest) = some (l, rest) := by
  intro l
  induction l with
  | nil =>
      intro rest
      show parseStrBody ('"' :: rest) = _
      rw [parseStrBody.eq_def]
      simp
  | cons c cs ih =>
      intro rest
      show parseStrBody ((escapeChar c ++ escapeChars cs) ++ '"' :: rest) = _
      by_cases hc : c = '"' ∨ c = '\\'
      · rw [escapeChar, if_pos hc]
        simp only [List.cons_append, List.append_assoc, List.nil_append]
        rw [parseStrBody.eq_def]
        simp only [reduceIte, reduceCtorEq]
        rw [if_pos hc, ih rest]
        simp
      · rw [escapeChar, if_neg hc]
        push_neg at hc
        simp only [List.cons_append, List.append_assoc, List.nil_append]
        rw [parseStrBody.eq_def]
        simp only []
        rw [if_neg hc.1, if_neg hc.2, ih rest]

theorem stringMk_data (s : String) : String.mk s.data = s := rfl

theorem parseF_zero (m : PMode) (cs : List Char) : parseF 0 m cs = none := rfl

theorem parseF_succ_val (fuel : Nat) (cs : List Char) :
    parseF (fuel + 1) PMode.val cs = parseValStep (parseF fuel) cs := rfl

theorem parseF_succ_arrTail (fuel : Nat) (cs : List Char) :
    parseF (fuel + 1) PMode.arrTail cs = parseArrTailStep (parseF fuel) cs := rfl

theorem parseF_succ_objTail (fuel : Nat) (cs : List Char) :
    parseF (fuel + 1) PMode.objTail cs = parseObjTailStep (parseF fuel) cs := rfl

-- ## Head-shape helpers

theorem dropLit_self : ∀ (p rest : List Char), dropLit p (p ++ rest) = some rest := by
  intro p
  induction p with
  | nil => intro rest; rfl
  | cons c cs ih =>
      intro rest
      show dropLit (c :: cs) (c :: (cs ++ rest)) = some rest
      rw [dropLit]
      rw [if_pos rfl]
      exact ih rest

theorem dumpChars_head (v : JsonValue) :
    ∃ c tl, dumpChars v = c :: tl ∧ c ≠ ']' := by
  cases v with
  | null => exact ⟨'n', _, rfl, by decide⟩
  | bool b =>
      cases b with
      | false => exact ⟨'f', _, rfl, by decide⟩
      | true => exact ⟨'t', _, rfl, by decide⟩
  | num i =>
      show ∃ c tl, intChars i = c :: tl ∧ c ≠ ']'
      rw [intChars]
      by_cases hi : i < 0
      · rw [if_pos hi]; exact ⟨'-', _, rfl, by decide⟩
      · rw [if_neg hi]
        rcases hne : natChars i.toNat with _ | ⟨c, cs⟩
        · exact absurd hne (natChars_ne_nil _)
        · refine ⟨c, cs, rfl, ?_⟩
          have hd := natChars_digits i.toNat c (by rw [hne]; simp)
          intro he
          rw [he] at hd
          exact absurd hd (by decide)
  | str s => exact ⟨'"', _, rfl, by decide⟩
  | arr l =>
      cases l with
      | nil => exact ⟨'[', _, rfl, by decide⟩
      | cons v1 l1 => exact ⟨'[', _, rfl, by decide⟩
  | obj o =>
      cases o with
      | nil => exact ⟨lbrace, _, rfl, by decide⟩
      | cons k v1 o1 => exact ⟨lbrace, _, rfl, by decide⟩

theorem headNotDigit_dumpList (l : JsonList) (rest : List Char) :
    headNotDigit (dumpListChars l ++ ']' :: rest) = true := by
  cases l with
  | nil => rfl
  | cons v1 l1 => rfl

theorem headNotDigit_dumpObj (o : JsonObj) (rest : List Char) :
    headNotDigit (dumpObjChars o ++ rbrace :: rest) = true := by
  cases o with
  | nil => rfl
  | cons k v1 o1 => rfl

theorem parseValStep_digit (rec : PMode → List Char → Option (PRes × List Char))
    (c : Char) (r : List Char) (h : c.isDigit = true) :
    parseValStep rec (c :: r) =
      (parseNum (c :: r)).map fun p => (PRes.v (.num (Int.ofNat p.1)), p.2) := by
  have hne : ∀ x : Char, x.isDigit = false → ¬ c = x := by
    intro x hx he
    rw [he, hx] at h
    exact absurd h (by simp)
  simp only [parseValStep]
  rw [if_neg (hne 'n' (by decide)), if_neg (hne 't' (by decide)),
    if_neg (hne 'f' (by decide)), if_neg (hne '"' (by decide)),
    if_neg (hne '[' (by decide)), if_neg (hne lbrace (by decide)),
    if_neg (hne '-' (by decide))]

-- ## Brace-character comparison facts

theorem lbrace_ne_n : (lbrace = 'n') = False := by decide

theorem lbrace_ne_t : (lbrace = 't') = False := by decide

theorem lbrace_ne_f : (lbrace = 'f') = False := by decide

theorem lbrace_ne_quote : (lbrace = '"') = False := by decide

theorem lbrace_ne_lbracket : (lbrace = '[') = False := by decide

theorem lbrace_self : (lbrace = lbrace) = True := by simp

theorem rbrace_self : (rbrace = rbrace) = True := by simp

theorem quote_ne_rbrace : (('"' : Char) = rbrace) = False := by decide

theorem dash_ne_lbrace : (('-' : Char) = lbrace) = False := by decide

theorem quote_ne_lbrace : (('"' : Char) = lbrace) = False := by decide

theorem comma_ne_rbrace : ((',' : Char) = rbrace) = False := by decide

-- ## Main round-trip

mutual

theorem parseF_dumpChars (v : JsonValue) : ∀ (fuel : Nat) (rest : List Char),
    (dumpChars v).length < fuel → headNotDigit rest = true →
    parseF fuel PMode.val (dumpChars v ++ rest) = some (PRes.v v, rest) := by
  cases v with
  | null =>
      intro fuel rest hf _
      cases fuel with
      | zero => exact absurd hf (by omega)
      | succ f =>
          rw [parseF_succ_val]
          show parseValStep (parseF f) ('n' :: ('u' :: 'l' :: 'l' :: rest)) = _
          simp [parseValStep, dropLit]
  | bool b =>
      cases b with
      | true =>
          intro fuel rest hf _
          cases fuel with
          | zero => exact absurd hf (by omega)
          | succ f =>
              rw [parseF_succ_val]
              show parseValStep (parseF f) ('t' :: ('r' :: 'u' :: 'e' :: rest)) = _
              simp [parseValStep, dropLit]
      | false =>
          intro fuel rest hf _
          cases fuel with
          | zero => exact absurd hf (by omega)
          | succ f =>
              rw [parseF_succ_val]
              show parseValStep (parseF f) ('f' :: ('a' :: 'l' :: 's' :: 'e' :: rest)) = _
              simp [parseValStep, dropLit]
  | num i =>
      intro fuel rest hf hr
      cases fuel with
      | zero => exact absurd hf (by omega)
      | succ f =>
          rw [parseF_succ_val]
          by_cases hi : i < 0
          · show parseValStep (parseF f) (intChars i ++ rest) = _
            rw [intChars, if_pos hi]
            simp only [List.cons_append]
            simp only [parseValStep]
            simp only [reduceIte]
            rw [parseNum_natChars i.natAbs rest hr]
            simp only [Option.map_some']
            have hv : -((i.natAbs : Nat) : Int) = i := by omega
            rw [hv]
            simp [dash_ne_lbrace]
          · show parseValStep (parseF f) (intChars i ++ rest) = _
            rw [intChars, if_neg hi]
            rcases hne : natChars i.toNat with _ | ⟨c, cs⟩
            · exact absurd hne (natChars_ne_nil _)
            · have hd : c.isDigit = true := natChars_digits i.toNat c (by rw [hne]; simp)
              simp only [List.cons_append]
              rw [parseValStep_digit (parseF f) c (cs ++ rest) hd]
              rw [show c :: (cs ++ rest) = natChars i.toNat ++ rest by rw [hne]; simp]
              rw [parseNum_natChars i.toNat rest hr]
              simp only [Option.map_some']
              have hv : Int.ofNat i.toNat = i := by
                simpa using Int.toNat_of_nonneg (not_lt.mp hi)
              rw [hv]
  | str s =>
      intro fuel rest hf _
      cases fuel with
      | zero => exact absurd hf (by omega)
      | succ f =>
          rw [parseF_succ_val]
          show parseValStep (parseF f) ('"' :: ((escapeChars s.data ++ ['"']) ++ rest)) = _
          rw [List.append_assoc, List.singleton_append]
          simp only [parseValStep]
          simp only [reduceIte]
          rw [parseStrBody_escape s.data rest]
          simp only [Option.map_some']
          rw [stringMk_data]
          simp [quote_ne_lbrace]
  | arr l =>
      cases l with
      | nil =>
          intro fuel rest hf _
          cases fuel with
          | zero => exact absurd hf (by omega)
          | succ f =>
              rw [parseF_succ_val]
              show parseValStep (parseF f) ('[' :: (']' :: rest)) = _
              simp [parseValStep, parseBracket, parseArrItem]
      | cons v1 l1 =>
          intro fuel rest hf _
          cases fuel with
          | zero => exact absurd hf (by omega)
          | succ f =>
              have hlen : (dumpChars (JsonValue.arr (JsonList.cons v1 l1))).length =
                  (dumpChars v1).length + (dumpListChars l1).length + 2 := by
                show ('[' :: (dumpChars v1 ++ dumpListChars l1 ++ [']'])).length = _
                simp [List.length_append]
                omega
              have hb1 : (dumpChars v1).length < f := by omega
              have hb2 : (dumpListChars l1).length < f := by omega
              rw [parseF_succ_val]
              show parseValStep (parseF f)
                  ('[' :: ((dumpChars v1 ++ dumpListChars l1 ++ [']']) ++ rest)) = _
              rw [show (dumpChars v1 ++ dumpListChars l1 ++ [']']) ++ rest =
                    dumpChars v1 ++ (dumpListChars l1 ++ (']' :: rest)) by
                simp [List.append_assoc]]
              simp only [parseValStep]
              simp only [reduceIte]
              obtain ⟨c2, tl, hdv, hne2⟩ := dumpChars_head v1
              rw [hdv]
              simp only [List.cons_append]
              simp only [parseBracket, parseArrItem]
              rw [if_neg hne2]
              rw [show c2 :: (tl ++ (dumpListChars l1 ++ (']' :: rest))) =
                    dumpChars v1 ++ (dumpListChars l1 ++ (']' :: rest)) by
                rw [hdv]; simp]
              simp only [recVal, recList]
              rw [parseF_dumpChars v1 f (dumpListChars l1 ++ (']' :: rest)) hb1
                (headNotDigit_dumpList l1 rest)]
              simp only [Option.some_bind, asVal]
              rw [parseF_dumpListChars l1 f rest hb2]
              simp [asList]
  | obj o =>
      cases o with
      | nil =>
          intro fuel rest hf _
          cases fuel with
          | zero => exact absurd hf (by omega)
          | succ f =>
              rw [parseF_succ_val]
              show parseValStep (parseF f) (lbrace :: (rbrace :: rest)) = _
              simp [parseValStep, parseBrace, parseObjOpen, lbrace_ne_n, lbrace_ne_t,
                lbrace_ne_f, lbrace_ne_quote, lbrace_ne_lbracket]
      | cons k v1 o1 =>
          intro fuel rest hf _
          cases fuel with
          | zero => exact absurd hf (by omega)
          | succ f =>
              have hlen : (dumpChars (JsonValue.obj (JsonObj.cons k v1 o1))).length =
                  (strChars k).length + (dumpChars v1).length +
                    (dumpObjChars o1).length + 4 := by
                show (lbrace :: (strChars k ++ ':' :: ' ' :: dumpChars v1 ++
                    dumpObjChars o1 ++ [rbrace])).length = _
                simp [strChars, List.length_append]
                omega
              have hb1 : (dumpChars v1).length < f := by omega
              have hb2 : (dumpObjChars o1).length < f := by omega
              rw [parseF_succ_val]
              show parseValStep (parseF f)
                  (lbrace :: ((strChars k ++ ':' :: ' ' :: dumpChars v1 ++
                    dumpObjChars o1 ++ [rbrace]) ++ rest)) = _
              rw [show (strChars k ++ ':' :: ' ' :: dumpChars v1 ++
                    dumpObjChars o1 ++ [rbrace]) ++ rest =
                  '"' :: (escapeChars k.data ++
                    ('"' :: (':' :: ' ' :: (dumpChars v1 ++
                      (dumpObjChars o1 ++ (rbrace :: rest)))))) by
                show ('"' :: (escapeChars k.data ++ ['"']) ++ ':' :: ' ' :: dumpChars v1 ++
                    dumpObjChars o1 ++ [rbrace]) ++ rest = _
                simp [List.append_assoc]]
              simp only [parseValStep]
              simp only [lbrace_ne_n, lbrace_ne_t, lbrace_ne_f, lbrace_ne_quote,
                lbrace_ne_lbracket, lbrace_self, if_false, if_true]
              simp only [parseBrace, parseObjOpen]
              simp only [quote_ne_rbrace, if_false, reduceIte]
              rw [parseStrBody_escape k.data
                (':' :: ' ' :: (dumpChars v1 ++ (dumpObjChars o1 ++ (rbrace :: rest))))]
              simp only [Option.some_bind]
              rw [show (':' :: ' ' :: (dumpChars v1 ++ (dumpObjChars o1 ++ (rbrace :: rest)))) =
                    [':', ' '] ++ (dumpChars v1 ++ (dumpObjChars o1 ++ (rbrace :: rest))) from rfl]
              rw [dropLit_self]
              simp only [Option.some_bind]
              simp only [recVal, recObj]
              rw [parseF_dumpChars v1 f (dumpObjChars o1 ++ (rbrace :: rest)) hb1
                (headNotDigit_dumpObj o1 rest)]
              simp only [Option.some_bind, asVal]
              rw [parseF_dumpObjChars o1 f rest hb2]
              simp [asObj, stringMk_data]

theorem parseF_dumpListChars (l : JsonList) : ∀ (fuel : Nat) (rest : List Char),
    (dumpListChars l).length < fuel →
    parseF fuel PMode.arrTail (dumpListChars l ++ ']' :: rest) = some (PRes.l l, rest) := by
  cases l with
  | nil =>
      intro fuel rest hf
      cases fuel with
      | zero => exact absurd hf (by omega)
      | succ f =>
          rw [parseF_succ_arrTail]
          show parseArrTailStep (parseF f) (']' :: rest) = _
          simp [parseArrTailStep]
  | cons v1 l1 =>
      intro fuel rest hf
      cases fuel with
      | zero => exact absurd hf (by omega)
      | succ f =>
          have hlen : (dumpListChars (JsonList.cons v1 l1)).length =
              (dumpChars v1).length + (dumpListChars l1).length + 2 := by
            show (',' :: ' ' :: (dumpChars v1 ++ dumpListChars l1)).length = _
            simp [List.length_append]
          have hb1 : (dumpChars v1).length < f := by omega
          have hb2 : (dumpListChars l1).length < f := by omega
          rw [parseF_succ_arrTail]
          show parseArrTailStep (parseF f)
              (',' :: (' ' :: ((dumpChars v1 ++ dumpListChars l1) ++ (']' :: rest)))) = _
          rw [show (dumpChars v1 ++ dumpListChars l1) ++ (']' :: rest) =
                dumpChars v1 ++ (dumpListChars l1 ++ (']' :: rest)) by
            simp [List.append_assoc]]
          simp only [parseArrTailStep]
          simp only [reduceIte]
          rw [show (' ' :: (dumpChars v1 ++ (dumpListChars l1 ++ (']' :: rest)))) =
                [' '] ++ (dumpChars v1 ++ (dumpListChars l1 ++ (']' :: rest))) from rfl]
          rw [dropLit_self]
          simp only [Option.some_bind]
          simp only [recVal, recList]
          rw [parseF_dumpChars v1 f (dumpListChars l1 ++ (']' :: rest)) hb1
            (headNotDigit_dumpList l1 rest)]
          simp only [Option.some_bind, asVal]
          rw [parseF_dumpListChars l1 f rest hb2]
          simp [asList]

theorem parseF_dumpObjChars (o : JsonObj) : ∀ (fuel : Nat) (rest : List Char),
    (dumpObjChars o).length < fuel →
    parseF fuel PMode.objTail (dumpObjChars o ++ rbrace :: rest) = some (PRes.o o, rest) := by
  cases o with
  | nil =>
      intro fuel rest hf
      cases fuel with
      | zero => exact absurd hf (by omega)
      | succ f =>
          rw [parseF_succ_objTail]
          show parseObjTailStep (parseF f) (rbrace :: rest) = _
          simp [parseObjTailStep]
  | cons k v1 o1 =>
      intro fuel rest hf
      cases fuel with
      | zero => exact absurd hf (by omega)
      | succ f =>
          have hlen : (dumpObjChars (JsonObj.cons k v1 o1)).length =
              (strChars k).length + (dumpChars v1).length +
                (dumpObjChars o1).length + 4 := by
            show (',' :: ' ' :: (strChars k ++ ':' :: ' ' :: dumpChars v1 ++
                dumpObjChars o1)).length = _
            simp [strChars, List.length_append]
            omega
          have hb1 : (dumpChars v1).length < f := by omega
          have hb2 : (dumpObjChars o1).length < f := by omega
          rw [parseF_succ_objTail]
          show parseObjTailStep (parseF f)
              (',' :: (' ' :: ((strChars k ++ ':' :: ' ' :: dumpChars v1 ++
                dumpObjChars o1) ++ (rbrace :: rest)))) = _
          rw [show (strChars k ++ ':' :: ' ' :: dumpChars v1 ++
                dumpObjChars o1) ++ (rbrace :: rest) =
              '"' :: (escapeChars k.data ++
                ('"' :: (':' :: ' ' :: (dumpChars v1 ++
                  (dumpObjChars o1 ++ (rbrace :: rest)))))) by
            show ('"' :: (escapeChars k.data ++ ['"']) ++ ':' :: ' ' :: dumpChars v1 ++
                dumpObjChars o1) ++ (rbrace :: rest) = _
            simp [List.append_assoc]]
          simp only [parseObjTailStep]
          simp only [comma_ne_rbrace, if_false, reduceIte]
          rw [show (' ' :: ('"' :: (escapeChars k.data ++
                ('"' :: (':' :: ' ' :: (dumpChars v1 ++
                  (dumpObjChars o1 ++ (rbrace :: rest)))))))) =
              [' ', '"'] ++ (escapeChars k.data ++
                ('"' :: (':' :: ' ' :: (dumpChars v1 ++
                  (dumpObjChars o1 ++ (rbrace :: rest)))))) from rfl]
          rw [dropLit_self]
          simp only [Option.some_bind]
          rw [parseStrBody_escape k.data
            (':' :: ' ' :: (dumpChars v1 ++ (dumpObjChars o1 ++ (rbrace :: rest))))]
          simp only [Option.some_bind]
          rw [show (':' :: ' ' :: (dumpChars v1 ++ (dumpObjChars o1 ++ (rbrace :: rest)))) =
                [':', ' '] ++ (dumpChars v1 ++ (dumpObjChars o1 ++ (rbrace :: rest))) from rfl]
          rw [dropLit_self]
          simp only [Option.some_bind]
          simp only [recVal, recObj]
          rw [parseF_dumpChars v1 f (dumpObjChars o1 ++ (rbrace :: rest)) hb1
            (headNotDigit_dumpObj o1 rest)]
          simp only [Option.some_bind, asVal]
          rw [parseF_dumpObjChars o1 f rest hb2]
          simp [asObj, stringMk_data]

end

theorem json_loads_dumps (v : JsonValue) :
    json_loads (json_dumps v) = Except.ok v := by
  rw [json_loads, json_dumps]
  have h := parseF_dumpChars v ((dumpChars v).length + 1) [] (by omega) rfl
  rw [List.append_nil] at h
  show (match parseF ((dumpChars v).length + 1) PMode.val (dumpChars v) with
    | some (.v v, []) => Except.ok v
    | _ => Except.error DecodeError.malformedData) = Except.ok v
  rw [h]

theorem json_dumps_injective (a b : JsonValue) (h : json_dumps a = json_dumps b) :
    a = b := by
  have ha := json_loads_dumps a
  have hb := json_loads_dumps b
  rw [h] at ha
  rw [hb] at ha
  exact (Except.ok.injEq _ _).mp ha.symm

-- ## Engine lemmas

theorem getitem_type (e : Expr) (idx : IndexArg) : (getitem e idx).type = e.type := by
  cases idx with
  | scalarKey k => rfl
  | path segs => rfl

theorem foldl_getitem_type (idxs : List IndexArg) : ∀ (e : Expr),
    (List.foldl getitem e idxs).type = e.type := by
  induction idxs with
  | nil => intro e; rfl
  | cons i l ih =>
      intro e
      rw [List.foldl_cons, ih (getitem e i), getitem_type]

theorem astext_type_not_path {t : SqlType} {a : SqlType}
    (h : t.astext_type = some a) : t.isJSONPathType = false := by
  cases t <;> first | rfl | simp [SqlType.astext_type] at h

theorem binary_ne_left (l : Expr) (op : custom_op) (r : Expr) (t : SqlType) :
    Expr.binary l op r t ≠ l := by
  intro h
  have hs := congrArg sizeOf h
  rw [Expr.binary.sizeOf_spec] at hs
  omega

theorem astext_of_binary (l : Expr) (op : custom_op) (r : Expr) (t aty : SqlType)
    (h : t.astext_type = some aty) :
    JSON.Comparator.astext (Expr.binary l op r t) =
      some (operate l
        (if (Expr.type r).isJSONPathType then JSONPATH_ASTEXT else ASTEXT) r aty) := by
  simp only [JSON.Comparator.astext, h]
  by_cases hr : (Expr.type r).isJSONPathType
  · rw [if_pos hr, if_pos hr]
  · rw [if_neg hr, if_neg hr]

theorem astext_chain (e : Expr) (idxs : List IndexArg) (last : IndexArg) (aty : SqlType)
    (h : e.type.astext_type = some aty) :
    JSON.Comparator.astext (List.foldl getitem e (idxs ++ [last])) =
      some (operate (List.foldl getitem e idxs)
        (if last.isPath then JSONPATH_ASTEXT else ASTEXT)
        (indexOperand (List.foldl getitem e idxs) last) aty) := by
  rw [List.foldl_append]
  have ht : (List.foldl getitem e idxs).type = e.type := foldl_getitem_type idxs e
  rw [show List.foldl getitem (List.foldl getitem e idxs) [last] =
        getitem (List.foldl getitem e idxs) last from rfl]
  cases last with
  | scalarKey k =>
      rw [show getitem (List.foldl getitem e idxs) (IndexArg.scalarKey k) =
            Expr.binary (List.foldl getitem e idxs) JSON_GETITEM
              (indexOperand (List.foldl getitem e idxs) (IndexArg.scalarKey k))
              (List.foldl getitem e idxs).type from rfl]
      rw [astext_of_binary _ _ _ _ aty (by rw [ht]; exact h)]
      rw [show Expr.type (indexOperand (List.foldl getitem e idxs)
            (IndexArg.scalarKey k)) = (List.foldl getitem e idxs).type from rfl]
      rw [ht, astext_type_not_path h]
      rw [show IndexArg.isPath (IndexArg.scalarKey k) = false from rfl]
  | path segs =>
      rw [show getitem (List.foldl getitem e idxs) (IndexArg.path segs) =
            Expr.binary (List.foldl getitem e idxs) JSON_PATH_GETITEM
              (indexOperand (List.foldl getitem e idxs) (IndexArg.path segs))
              (List.foldl getitem e idxs).type from rfl]
      rw [astext_of_binary _ _ _ _ aty (by rw [ht]; exact h)]
      rw [show Expr.type (indexOperand (List.foldl getitem e idxs)
            (IndexArg.path segs)) = SqlType.JSONPathType from rfl]
      rw [show SqlType.JSONPathType.isJSONPathType = true from rfl]
      rw [show IndexArg.isPath (IndexArg.path segs) = true from rfl]


-- ## Codec helper lemmas

theorem isNull_eq_true_iff (v : JsonValue) : isNull v = true ↔ v = JsonValue.null := by
  cases v <;> simp [isNull]

theorem defaultDialect_serializer :
    defaultDialect.json_serializer.getD json_dumps = json_dumps := rfl

-- ## Claim theorems

/-- Claim C6: the operator descriptor family has exactly seven members, each
with precedence 15 and `natural_self_precedent = true`, and no two members
share a symbol. -/
theorem operatorFamily_spec :
    operatorFamily.length = 7 ∧
    (operatorFamily.all fun op =>
      op.precedence == 15 && op.natural_self_precedent) = true ∧
    (operatorFamily.map custom_op.opstring).Nodup := by
  refine ⟨rfl, rfl, ?_⟩
  decide

/-- Claim C4: normalizing an ordered sequence of string segments produces
the brace-delimited, comma-and-space-separated token, preserving order and
duplicates verbatim; in particular `["a", "b", "c"]` yields exactly
the brace token `"{a, b, c}"`. -/
theorem JSONPathType_bind_processor_sequence :
    (∀ segs : List String,
      JSONPathType.bind_processor (PyValue.pyList (segs.map PyAtom.pyStr)) =
        Except.ok ("\x7b" ++ String.intercalate ", " segs ++ "\x7d")) ∧
    JSONPathType.bind_processor
        (PyValue.pyList [PyAtom.pyStr "a", PyAtom.pyStr "b", PyAtom.pyStr "c"]) =
      Except.ok "\x7ba, b, c\x7d" := by
  constructor
  · intro segs
    simp [JSONPathType.bind_processor, PyValue.isSequence, PyValue.elems,
      List.map_map, Function.comp_def, text_type]
  · rfl

/-- Claim C5: any non-sequence input fails the precondition with a
`TypeMismatch` error before any output is produced. -/
theorem JSONPathType_bind_processor_scalar (value : PyValue)
    (h : value.isSequence = false) :
    JSONPathType.bind_processor value = Except.error PathBindError.typeMismatch := by
  simp [JSONPathType.bind_processor, h]

/-- Witness for `JSONPathType_bind_processor_scalar`: the scalar `3` is not a
sequence and is rejected. -/
theorem JSONPathType_bind_processor_scalar_witness :
    (PyValue.atom (PyAtom.pyInt 3)).isSequence = false ∧
    JSONPathType.bind_processor (PyValue.atom (PyAtom.pyInt 3)) =
      Except.error PathBindError.typeMismatch :=
  ⟨rfl, JSONPathType_bind_processor_scalar (PyValue.atom (PyAtom.pyInt 3)) rfl⟩

/-- Claim C10: a Python string counts as a sequence, so the normalizer
accepts it and emits its individual characters as segments; `"ab"` yields
the brace token `"{a, b}"` rather than failing as a scalar. -/
theorem JSONPathType_bind_processor_string :
    (∀ s : String,
      JSONPathType.bind_processor (PyValue.atom (PyAtom.pyStr s)) =
        Except.ok ("\x7b" ++
          String.intercalate ", " (s.data.map String.singleton) ++ "\x7d")) ∧
    JSONPathType.bind_processor (PyValue.atom (PyAtom.pyStr "ab")) =
      Except.ok "\x7ba, b\x7d" := by
  constructor
  · intro s
    simp [JSONPathType.bind_processor, PyValue.isSequence, PyValue.elems,
      List.map_map, Function.comp_def, text_type]
  · rfl

/-- Claim C2: `bind_processor` discriminates NULLs: the `null()` construct
encodes to absence; the `JSON.NULL` sentinel encodes to the serialized
literal-null bytes under every `none_as_null` setting; Python `None`
encodes to absence when `none_as_null = true` and to the literal-null bytes
when `none_as_null = false`; and every input lands in exactly one of the
three outcome categories absence / literal-null bytes / serialized bytes of
a non-null value. -/
theorem bind_processor_null_discrimination (none_as_null : Bool) :
    JSON.bind_processor none_as_null defaultDialect BindValue.sqlNull = none ∧
    JSON.bind_processor none_as_null defaultDialect BindValue.NULL =
      some (json_dumps JsonValue.null) ∧
    JSON.bind_processor true defaultDialect (BindValue.val JsonValue.null) = none ∧
    JSON.bind_processor false defaultDialect (BindValue.val JsonValue.null) =
      some (json_dumps JsonValue.null) ∧
    ∀ bv : BindValue,
      (JSON.bind_processor none_as_null defaultDialect bv = none ∧
        JSON.bind_processor none_as_null defaultDialect bv ≠
          some (json_dumps JsonValue.null) ∧
        ¬ ∃ v, v ≠ JsonValue.null ∧
          JSON.bind_processor none_as_null defaultDialect bv = some (json_dumps v)) ∨
      (JSON.bind_processor none_as_null defaultDialect bv ≠ none ∧
        JSON.bind_processor none_as_null defaultDialect bv =
          some (json_dumps JsonValue.null) ∧
        ¬ ∃ v, v ≠ JsonValue.null ∧
          JSON.bind_processor none_as_null defaultDialect bv = some (json_dumps v)) ∨
      (JSON.bind_processor none_as_null defaultDialect bv ≠ none ∧
        JSON.bind_processor none_as_null defaultDialect bv ≠
          some (json_dumps JsonValue.null) ∧
        ∃ v, v ≠ JsonValue.null ∧
          JSON.bind_processor none_as_null defaultDialect bv = some (json_dumps v)) := by
  refine ⟨rfl, rfl, rfl, rfl, ?_⟩
  intro bv
  cases bv with
  | NULL =>
      have hE : JSON.bind_processor none_as_null defaultDialect BindValue.NULL =
          some (json_dumps JsonValue.null) := rfl
      refine Or.inr (Or.inl ⟨by rw [hE]; simp, hE, ?_⟩)
      rintro ⟨v, hv, he⟩
      rw [hE] at he
      exact hv (json_dumps_injective v JsonValue.null
        ((Option.some.injEq _ _).mp he).symm)
  | sqlNull =>
      refine Or.inl ⟨rfl, by simp [JSON.bind_processor], ?_⟩
      rintro ⟨v, hv, he⟩
      simp [JSON.bind_processor] at he
  | val v =>
      by_cases hv : isNull v = true
      · have hveq : v = JsonValue.null := (isNull_eq_true_iff v).mp hv
        subst hveq
        cases none_as_null with
        | true =>
            refine Or.inl ⟨rfl, by simp [JSON.bind_processor, isNull], ?_⟩
            rintro ⟨w, hw, he⟩
            simp [JSON.bind_processor, isNull] at he
        | false =>
            refine Or.inr (Or.inl ⟨by simp [JSON.bind_processor, isNull], rfl, ?_⟩)
            rintro ⟨w, hw, he⟩
            simp [JSON.bind_processor, isNull] at he
            exact hw (json_dumps_injective w JsonValue.null he.symm)
      · have hvne : v ≠ JsonValue.null := fun he => hv (by rw [he]; rfl)
        have hE : JSON.bind_processor none_as_null defaultDialect (BindValue.val v) =
            some (json_dumps v) := by
          simp [JSON.bind_processor, Bool.eq_false_iff.mpr hv, defaultDialect_serializer]
        refine Or.inr (Or.inr ⟨by rw [hE]; simp, ?_, v, hvne, hE⟩)
        rw [hE]
        intro he
        exact hvne (json_dumps_injective v JsonValue.null
          ((Option.some.injEq _ _).mp he))

/-- Witness for `bind_processor_null_discrimination`: with
`none_as_null = false`, encoding the non-null value `true` lands in the
serialized-bytes category. -/
theorem bind_processor_null_discrimination_witness :
    (JSON.bind_processor false defaultDialect (BindValue.val (JsonValue.bool true)) = none ∧
      JSON.bind_processor false defaultDialect (BindValue.val (JsonValue.bool true)) ≠
        some (json_dumps JsonValue.null) ∧
      ¬ ∃ v, v ≠ JsonValue.null ∧
        JSON.bind_processor false defaultDialect (BindValue.val (JsonValue.bool true)) =
          some (json_dumps v)) ∨
    (JSON.bind_processor false defaultDialect (BindValue.val (JsonValue.bool true)) ≠ none ∧
      JSON.bind_processor false defaultDialect (BindValue.val (JsonValue.bool true)) =
        some (json_dumps JsonValue.null) ∧
      ¬ ∃ v, v ≠ JsonValue.null ∧
        JSON.bind_processor false defaultDialect (BindValue.val (JsonValue.bool true)) =
          some (json_dumps v)) ∨
    (JSON.bind_processor false defaultDialect (BindValue.val (JsonValue.bool true)) ≠ none ∧
      JSON.bind_processor false defaultDialect (BindValue.val (JsonValue.bool true)) ≠
        some (json_dumps JsonValue.null) ∧
      ∃ v, v ≠ JsonValue.null ∧
        JSON.bind_processor false defaultDialect (BindValue.val (JsonValue.bool true)) =
          some (json_dumps v)) :=
  (bind_processor_null_discrimination false).2.2.2.2 (BindValue.val (JsonValue.bool true))

/-- Claim C3: decode after encode is the identity on every structured value
that is neither the literal-null marker nor the host no-value marker, under
the default serializer and deserializer. -/
theorem decode_encode_roundtrip (none_as_null : Bool) (v : JsonValue)
    (h : v ≠ JsonValue.null) :
    JSON.result_processor defaultDialect
        (JSON.bind_processor none_as_null defaultDialect (BindValue.val v)) =
      Except.ok v := by
  have hv : isNull v = false := by
    cases hb : isNull v
    · rfl
    · exact absurd ((isNull_eq_true_iff v).mp hb) h
  have hE : JSON.bind_processor none_as_null defaultDialect (BindValue.val v) =
      some (json_dumps v) := by
    simp [JSON.bind_processor, hv, defaultDialect_serializer]
  rw [hE]
  show json_loads (json_dumps v) = Except.ok v
  exact json_loads_dumps v

/-- Witness for `decode_encode_roundtrip`: the object value with a single
key round-trips, evaluated concretely. -/
theorem decode_encode_roundtrip_witness :
    (JsonValue.obj (JsonObj.cons "a" (JsonValue.num 1) JsonObj.nil) ≠ JsonValue.null) ∧
    JSON.result_processor defaultDialect
        (JSON.bind_processor false defaultDialect
          (BindValue.val (JsonValue.obj (JsonObj.cons "a" (JsonValue.num 1) JsonObj.nil)))) =
      Except.ok (JsonValue.obj (JsonObj.cons "a" (JsonValue.num 1) JsonObj.nil)) :=
  ⟨fun h => JsonValue.noConfusion h,
    decode_encode_roundtrip false _ (fun h => JsonValue.noConfusion h)⟩

/-- Claim C8: absence decodes to the host no-value marker with no
deserialization attempted (the result is the same for every dialect); a
deserialization failure on stored text propagates to the caller unchanged,
with no partial value produced — in particular, under the default
deserializer a malformed stored string yields `MalformedData`. -/
theorem result_processor_error_propagation :
    (∀ dialect : Dialect, JSON.result_processor dialect none = Except.ok JsonValue.null) ∧
    (∀ (sd : Option (JsonValue → String)) (d : String → Except DecodeError JsonValue)
        (s : String) (e : DecodeError),
      d s = Except.error e →
      JSON.result_processor ⟨sd, some d⟩ (some s) = Except.error e) ∧
    (∀ s : String, json_loads s = Except.error DecodeError.malformedData →
      JSON.result_processor defaultDialect (some s) =
        Except.error DecodeError.malformedData) := by
  refine ⟨fun dialect => rfl, ?_, ?_⟩
  · intro sd d s e hd
    show d s = Except.error e
    exact hd
  · intro s hs
    show json_loads s = Except.error DecodeError.malformedData
    exact hs

/-- Witness for `result_processor_error_propagation`: the truncated encoding
consisting of a single opening brace fails to deserialize, and the result
processor surfaces `MalformedData` on it. -/
theorem result_processor_error_propagation_witness :
    json_loads "\x7b" = Except.error DecodeError.malformedData ∧
    JSON.result_processor defaultDialect (some "\x7b") =
      Except.error DecodeError.malformedData :=
  ⟨rfl, result_processor_error_propagation.2.2 "\x7b" rfl⟩

/-- Claim C9: under the default serializer and deserializer, decoding the
encoding of the `JSON.NULL` sentinel yields the host no-value marker, the
same result as decoding absence: the literal-null / absence distinction is
collapsed by decode. -/
theorem decode_collapses_literal_null (none_as_null : Bool) :
    JSON.result_processor defaultDialect
        (JSON.bind_processor none_as_null defaultDialect BindValue.NULL) =
      Except.ok JsonValue.null ∧
    JSON.result_processor defaultDialect none = Except.ok JsonValue.null :=
  ⟨rfl, rfl⟩

/-- Witness for `decode_collapses_literal_null` at a concrete configuration. -/
theorem decode_collapses_literal_null_witness :
    JSON.result_processor defaultDialect
        (JSON.bind_processor true defaultDialect BindValue.NULL) =
      Except.ok JsonValue.null ∧
    JSON.result_processor defaultDialect none = Except.ok JsonValue.null :=
  decode_collapses_literal_null true

/-- Claim C7: each of the five JSONB containment / existence methods builds
a new boolean-typed expression with its dedicated operator from the
unchanged operand expression, and the result is a new node distinct from
the operand (the embedding is pure, so the operand itself is never
mutated). -/
theorem jsonb_comparator_containment (e other : Expr) :
    (JSONB.Comparator.has_key e other = Expr.binary e HAS_KEY other SqlType.Boolean ∧
      (JSONB.Comparator.has_key e other).type = SqlType.Boolean ∧
      JSONB.Comparator.has_key e other ≠ e) ∧
    (JSONB.Comparator.has_all e other = Expr.binary e HAS_ALL other SqlType.Boolean ∧
      (JSONB.Comparator.has_all e other).type = SqlType.Boolean ∧
      JSONB.Comparator.has_all e other ≠ e) ∧
    (JSONB.Comparator.has_any e other = Expr.binary e HAS_ANY other SqlType.Boolean ∧
      (JSONB.Comparator.has_any e other).type = SqlType.Boolean ∧
      JSONB.Comparator.has_any e other ≠ e) ∧
    (JSONB.Comparator.contains e other = Expr.binary e CONTAINS other SqlType.Boolean ∧
      (JSONB.Comparator.contains e other).type = SqlType.Boolean ∧
      JSONB.Comparator.contains e other ≠ e) ∧
    (JSONB.Comparator.contained_by e other =
        Expr.binary e CONTAINED_BY other SqlType.Boolean ∧
      (JSONB.Comparator.contained_by e other).type = SqlType.Boolean ∧
      JSONB.Comparator.contained_by e other ≠ e) :=
  ⟨⟨rfl, rfl, binary_ne_left e HAS_KEY other SqlType.Boolean⟩,
    ⟨rfl, rfl, binary_ne_left e HAS_ALL other SqlType.Boolean⟩,
    ⟨rfl, rfl, binary_ne_left e HAS_ANY other SqlType.Boolean⟩,
    ⟨rfl, rfl, binary_ne_left e CONTAINS other SqlType.Boolean⟩,
    ⟨rfl, rfl, binary_ne_left e CONTAINED_BY other SqlType.Boolean⟩⟩

/-- Claim C1: `astext` selects the text operator solely from the shape tag
of the immediately preceding index — the path text operator `#>>` when the
right operand's type is the path type and the key text operator `->>`
otherwise, always with the owning type's configured `astext_type` as the
result type — and this holds at the end of an index chain of any length,
where the shape of the last index alone decides the operator. -/
theorem astext_operator_from_index_shape :
    (∀ (l : Expr) (op : custom_op) (r : Expr) (t aty : SqlType),
      t.astext_type = some aty →
      JSON.Comparator.astext (Expr.binary l op r t) =
        some (operate l
          (if (Expr.type r).isJSONPathType then JSONPATH_ASTEXT else ASTEXT) r aty)) ∧
    (∀ (e : Expr) (idxs : List IndexArg) (lastIdx : IndexArg) (aty : SqlType),
      e.type.astext_type = some aty →
      JSON.Comparator.astext (List.foldl getitem e (idxs ++ [lastIdx])) =
        some (operate (List.foldl getitem e idxs)
          (if lastIdx.isPath then JSONPATH_ASTEXT else ASTEXT)
          (indexOperand (List.foldl getitem e idxs) lastIdx) aty)) :=
  ⟨astext_of_binary, astext_chain⟩

/-- Witness for `astext_operator_from_index_shape`: indexing a JSON column
by two scalar keys and requesting `astext` yields the key text operator
`->>`, while a path index followed by `astext` yields the path text
operator `#>>`, both with result type `Text`. -/
theorem astext_operator_from_index_shape_witness :
    JSON.Comparator.astext
        (List.foldl getitem (Expr.column "data" (SqlType.JSON false SqlType.Text))
          ([IndexArg.scalarKey "a"] ++ [IndexArg.scalarKey "b"])) =
      some (operate
        (List.foldl getitem (Expr.column "data" (SqlType.JSON false SqlType.Text))
          [IndexArg.scalarKey "a"])
        ASTEXT
        (indexOperand
          (List.foldl getitem (Expr.column "data" (SqlType.JSON false SqlType.Text))
            [IndexArg.scalarKey "a"])
          (IndexArg.scalarKey "b"))
        SqlType.Text) ∧
    JSON.Comparator.astext
        (List.foldl getitem (Expr.column "data" (SqlType.JSON false SqlType.Text))
          ([] ++ [IndexArg.path ["k1", "k2"]])) =
      some (operate
        (List.foldl getitem (Expr.column "data" (SqlType.JSON false SqlType.Text)) [])
        JSONPATH_ASTEXT
        (indexOperand
          (List.foldl getitem (Expr.column "data" (SqlType.JSON false SqlType.Text)) [])
          (IndexArg.path ["k1", "k2"]))
        SqlType.Text) :=
  ⟨astext_operator_from_index_shape.2
      (Expr.column "data" (SqlType.JSON false SqlType.Text))
      [IndexArg.scalarKey "a"] (IndexArg.scalarKey "b") SqlType.Text rfl,
    astext_operator_from_index_shape.2
      (Expr.column "data" (SqlType.JSON false SqlType.Text))
      [] (IndexArg.path ["k1", "k2"]) SqlType.Text rfl⟩

/-- Witness for `JSONPathType_bind_processor_sequence`: duplicate segments
are kept and order is preserved. -/
theorem JSONPathType_bind_processor_sequence_witness :
    JSONPathType.bind_processor (PyValue.pyList (["x", "x"].map PyAtom.pyStr)) =
      Except.ok ("\x7b" ++ String.intercalate ", " ["x", "x"] ++ "\x7d") :=
  JSONPathType_bind_processor_sequence.1 ["x", "x"]

/-- Witness for `JSONPathType_bind_processor_string` at the string "abc". -/
theorem JSONPathType_bind_processor_string_witness :
    JSONPathType.bind_processor (PyValue.atom (PyAtom.pyStr "abc")) =
      Except.ok ("\x7b" ++
        String.intercalate ", " ("abc".data.map String.singleton) ++ "\x7d") :=
  JSONPathType_bind_processor_string.1 "abc"

/-- Witness for `jsonb_comparator_containment` at a concrete JSONB column
and argument. -/
theorem jsonb_comparator_containment_witness :
    JSONB.Comparator.has_key
        (Expr.column "data" (SqlType.JSONB false SqlType.Text))
        (Expr.bindParam (PyValue.atom (PyAtom.pyStr "k")) SqlType.Text) =
      Expr.binary (Expr.column "data" (SqlType.JSONB false SqlType.Text)) HAS_KEY
        (Expr.bindParam (PyValue.atom (PyAtom.pyStr "k")) SqlType.Text)
        SqlType.Boolean ∧
    (JSONB.Comparator.has_key
        (Expr.column "data" (SqlType.JSONB false SqlType.Text))
        (Expr.bindParam (PyValue.atom (PyAtom.pyStr "k")) SqlType.Text)).type =
      SqlType.Boolean ∧
    JSONB.Comparator.has_key
        (Expr.column "data" (SqlType.JSONB false SqlType.Text))
        (Expr.bindParam (PyValue.atom (PyAtom.pyStr "k")) SqlType.Text) ≠
      Expr.column "data" (SqlType.JSONB false SqlType.Text) :=
  (jsonb_comparator_containment
    (Expr.column "data" (SqlType.JSONB false SqlType.Text))
    (Expr.bindParam (PyValue.atom (PyAtom.pyStr "k")) SqlType.Text)).1
